import Mathlib

/-!
Verification of the Vite configuration plugin (`vite_config_plugin/__init__.py`):
a shallow embedding of its data model (Python structured values), the deep-merge
engine, the JS serializer, the default-configuration builder, the alias-array
builder and the render orchestrator, with theorems checking the specification's
claims against the embedded code.
-/

namespace ViteCfg

/-- A Python dictionary key. The plugin's own dictionaries use string keys only;
`kint` represents a non-string (hashable) key, which the serializer's
all-string-keys guard can encounter on user-supplied mappings. -/
inductive PyKey where
  | kstr : String → PyKey
  | kint : Int → PyKey
deriving DecidableEq, Repr

/-- A Python structured value as passed through merge and serialization:
`raw` is the `RawJS` wrapper (holding its `code` string), `dict` an ordered
mapping (Python dicts preserve insertion order), `list` a sequence, and the
scalars. `num` models Python integers (the serializer's numeric fallback);
floating point is out of scope. -/
inductive JSValue where
  | raw : String → JSValue
  | dict : List (PyKey × JSValue) → JSValue
  | list : List JSValue → JSValue
  | str : String → JSValue
  | bool : Bool → JSValue
  | null : JSValue
  | num : Int → JSValue
deriving Repr

/-- The entry list of a Python dict, in insertion order. -/
abbrev Entries := List (PyKey × JSValue)

/-- Python `d.get(k)` / `d[k]`: the value at the first (for a real Python dict,
only) occurrence of the key. -/
def assocGet (k : PyKey) : Entries → Option JSValue
  | [] => none
  | (k1, v) :: rest => if k1 = k then some v else assocGet k rest

/-- Python `d[k] = v`: replace the value at an existing key in place (keeping
its position), or append a new key at the end. -/
def assocSet (k : PyKey) (v : JSValue) : Entries → Entries
  | [] => [(k, v)]
  | (k1, v1) :: rest => if k1 = k then (k, v) :: rest else (k1, v1) :: assocSet k v rest

/-- `__deep_merge__(mergee, merger)`: for each key of `mergee` in order,
  * value and existing entry both dicts → recursive merge, stored back;
  * value a list and key present → `merger[key].extend(value)`, which raises
    `AttributeError` (`none` here) when the existing value is not a list;
  * value a list and key absent → plain assignment;
  * otherwise (scalar, `RawJS`, or dict meeting a non-dict) → plain assignment.
Returns the mutated `merger` (modelled functionally). -/
def deepMerge : Entries → Entries → Option Entries
  | [], merger => some merger
  | (k, v) :: rest, merger =>
    (match v, assocGet k merger with
      | .dict ve, some (.dict me) =>
        (deepMerge ve me).map (fun inner => assocSet k (.dict inner) merger)
      | .list items, some (.list old) => some (assocSet k (.list (old ++ items)) merger)
      | .list _, some _ => none
      | .list items, none => some (assocSet k (.list items) merger)
      | _, _ => some (assocSet k v merger)
    ).bind (fun merger1 => deepMerge rest merger1)

/-- Python `s * n` for strings: `n` copies of `s` concatenated (`0` for a
negative or zero count). -/
def pyRepeat (s : String) (n : Nat) : String := String.join (List.replicate n s)

/-- First character class of the identifier regex `[A-Za-z_$]`. -/
def identFirst (c : Char) : Bool := c.isAlpha || c = '_' || c = '$'

/-- Remaining character class of the identifier regex `[A-Za-z0-9_$]`. -/
def identRest (c : Char) : Bool := c.isAlphanum || c = '_' || c = '$'

/-- Whether a character list matches `[A-Za-z_$][A-Za-z0-9_$]*` entirely. -/
def identCore : List Char → Bool
  | [] => false
  | c :: rest => identFirst c && rest.all identRest

/-- Python `re.match(r"^[A-Za-z_$][A-Za-z0-9_$]*$", s)`: in Python's `re`, `$`
also matches just before a single trailing newline, so `"abc\n"` matches. -/
def regexIdentMatch (s : String) : Bool :=
  identCore s.data ||
    (match s.data.getLast? with
      | some c => c = '\n' && identCore s.data.dropLast
      | none => false)

/-- Whether a dict key is a Python `str` (`isinstance(k, str)`). -/
def isStrKey : PyKey → Bool
  | .kstr _ => true
  | .kint _ => false

/-- Key emission inside `__handle_dict__`: bare when the key matches the
identifier regex, otherwise wrapped in single quotes. The `kint` arm is
unreachable there (the all-string-keys guard precedes it). -/
def keyOut : PyKey → String
  | .kstr s => if regexIdentMatch s then s else "'" ++ s ++ "'"
  | .kint n => toString n

/-- `__python_to_js__(value, indent)` with `__handle_dict__` inlined into the
`dict` arm (the guard, key emission and joining are verbatim; `sp`, computed
once in the source, is written out twice here). Dispatch is the source's
first-match table over RawJS / dict / list / str / bool / None, with the
numeric fallback `str(value)` last; the classes are disjoint, so a closed
match is equivalent. -/
def pyToJs : JSValue → Nat → String
  | .raw code, _ => code
  | .dict entries, indent =>
    if !entries.isEmpty && entries.all (fun p => isStrKey p.1) then
      "\x7b\n" ++
        String.intercalate ",\n"
          (entries.attach.map (fun p =>
            pyRepeat " " indent ++ "  " ++ keyOut p.1.1 ++ ": " ++ pyToJs p.1.2 (indent + 1))) ++
        "\n" ++ pyRepeat " " indent ++ "\x7d"
    else "\x7b\x7d"
  | .list items, indent =>
    "[" ++ String.intercalate ", " (items.attach.map (fun p => pyToJs p.1 (indent + 1))) ++ "]"
  | .str s, _ => "'" ++ s ++ "'"
  | .bool b, _ => if b then "true" else "false"
  | .null, _ => "null"
  | .num n, _ => toString n
termination_by v _ => sizeOf v
decreasing_by
  · obtain ⟨⟨k1, v1⟩, hmem⟩ := p
    have h := List.sizeOf_lt_of_mem hmem
    simp_wf
    simp at h
    omega
  · have h := List.sizeOf_lt_of_mem p.2
    simp_wf
    omega

/-- The Python exceptions the embedded operations can raise. -/
inductive PyErr where
  | attributeError : PyErr
  | keyError : PyErr
  | typeError : PyErr
deriving DecidableEq, Repr

/-- Python `s.replace(c, r)` for a one-character pattern and one-character
replacement: replace every occurrence. -/
def pyReplaceChar (c r : Char) (s : String) : String :=
  String.mk (s.data.map (fun d => if d = c then r else d))

/-- Python `s.replace(c, r)` for a one-character pattern and a string
replacement: splice `r` in place of every occurrence of `c`. -/
def pyReplaceCharStr (c : Char) (r : String) (s : String) : String :=
  String.mk (s.data.flatMap (fun d => if d = c then r.data else [d]))

/-- `alias["replacement"].replace("\\", "/").replace('"', '\\"')`: backslashes
to forward slashes first, then each double quote becomes `\"`. -/
def safePath (rep : String) : String :=
  pyReplaceCharStr '"' "\\\"" (pyReplaceChar '\\' '/' rep)

/-- Python `str(x)` as the f-string interpolates the `find` value. For values
without `__str__` (the RawJS wrapper) Python prints an address-dependent
default repr, modelled by a fixed opaque token; dict and list reprs are
likewise opaque tokens (no claim inspects these arms, and the `Alias` type
declares `find` as `str | RawJS`). -/
def pyFStr : JSValue → String
  | .str s => s
  | .num n => toString n
  | .bool b => if b then "True" else "False"
  | .null => "None"
  | .raw _ => "<vite_config_plugin.RawJS object>"
  | .dict _ => "<dict repr>"
  | .list _ => "<list repr>"

/-- One iteration of the loop in `__alias_dict_to_js_array__`: look up
`alias["replacement"]` (KeyError when absent, AttributeError from `.replace`
when not a `str`), normalize it, then emit the array-element line with the
interpolated `find` (KeyError when absent). A non-dict record is not
subscriptable by a string: TypeError. -/
def aliasLine (item : JSValue) (sp : String) : Except PyErr String :=
  match item with
  | .dict a =>
    match assocGet (.kstr "replacement") a with
    | none => .error .keyError
    | some (.str rep) =>
      match assocGet (.kstr "find") a with
      | none => .error .keyError
      | some f =>
        .ok (sp ++ "\x7b find: \"" ++ pyFStr f ++
          "\", replacement: fileURLToPath(new URL(\"" ++ safePath rep ++
          "\", import.meta.url)) \x7d")
    | some _ => .error .attributeError
  | _ => .error .typeError

/-- The loop of `__alias_dict_to_js_array__` over its records, first raised
exception wins. -/
def aliasLines : List JSValue → String → Except PyErr (List String)
  | [], _ => .ok []
  | a :: rest, sp =>
    match aliasLine a sp with
    | .error e => .error e
    | .ok line =>
      match aliasLines rest sp with
      | .error e => .error e
      | .ok lines => .ok (line :: lines)

/-- Python truthiness of a structured value (`if not aliases`). -/
def pyTruthy : JSValue → Bool
  | .raw _ => true
  | .dict entries => !entries.isEmpty
  | .list items => !items.isEmpty
  | .str s => !s.isEmpty
  | .bool b => b
  | .null => false
  | .num n => n != 0

/-- `__alias_dict_to_js_array__(aliases, indent)`. Falsy input (notably the
empty list) yields `RawJS("[]")`; a non-empty list is rendered line by line
with `sp = "  " * indent`, wrapped in brackets whose closing indent is the
source's quirky `sp * (indent - 1)`. A truthy non-list raises: iterating a
dict yields its (non-subscriptable-by-string) keys, iterating a string yields
characters, and the other values are not iterable — TypeError in every case. -/
def aliasDictToJsArray (aliases : JSValue) (indent : Nat) : Except PyErr JSValue :=
  match aliases with
  | .list items =>
    if items.isEmpty then .ok (.raw "[]")
    else
      match aliasLines items (pyRepeat "  " indent) with
      | .error e => .error e
      | .ok lines =>
        .ok (.raw ("[\n" ++ String.intercalate ",\n" lines ++ "\n" ++
          pyRepeat (pyRepeat "  " indent) (indent - 1) ++ "]"))
  | other => if pyTruthy other then .error .typeError else .ok (.raw "[]")

/-- The abstract settings provider: the host application's frontend path and
the two environment flags read by `__set_defaults__`. -/
structure Settings where
  frontendPath : String
  viteHmr : Bool
  viteForceFullReload : Bool

/-- Python `s.strip("/")`: remove leading and trailing `/` characters. -/
def pyStripSlash (s : String) : String :=
  String.mk (((s.data.dropWhile (fun c => c = '/')).reverse.dropWhile (fun c => c = '/')).reverse)

/-- The `base` computed by `__set_defaults__`: `"/"`, extended to
`"/<path>/"` when the stripped frontend path is non-empty (truthy). -/
def basePath (fp : String) : String :=
  let t := pyStripSlash fp
  if t.isEmpty then "/" else "/" ++ t ++ "/"

/-- The literal `default` dictionary built by `__set_defaults__` before the
conditional plugin append. -/
def baseDefaultTree (s : Settings) : Entries :=
  [ (.kstr "plugins", .list
      [ .raw "alwaysUseReactDomServerNode()", .raw "reactRouter()",
        .raw "safariCacheBustPlugin()" ]),
    (.kstr "build", .dict
      [ (.kstr "assetsDir", .raw ("\"" ++ basePath s.frontendPath ++ "assets\".slice(1)")),
        (.kstr "rollupOptions", .dict
          [ (.kstr "jsx", .dict []),
            (.kstr "output", .dict
              [ (.kstr "advancedChunks", .dict
                  [ (.kstr "groups", .list
                      [ .dict [ (.kstr "test", .raw "/env.json/"),
                                (.kstr "name", .str "reflex-env") ] ]) ]) ]) ]) ]),
    (.kstr "experimental", .dict [ (.kstr "enableNativePlugin", .bool false) ]),
    (.kstr "server", .dict
      [ (.kstr "port", .raw "process.env.PORT"),
        (.kstr "hmr", .bool s.viteHmr),
        (.kstr "watch", .dict
          [ (.kstr "ignored", .list
              [ .str "**/.web/backend/**",
                .str "**/.web/reflex.install_frontend_packages.cached" ]) ]) ]),
    (.kstr "resolve", .dict
      [ (.kstr "mainFields", .list [ .str "browser", .str "module", .str "jsnext" ]),
        (.kstr "alias", .list
          [ .dict [ (.kstr "find", .str "@"), (.kstr "replacement", .str "./public") ],
            .dict [ (.kstr "find", .str "$"), (.kstr "replacement", .str "./") ] ]) ]) ]

/-- `default["plugins"].append(p)`: append to the list stored under
`"plugins"` (no-op arm unreachable: the tree always holds a list there). -/
def appendPlugin (tree : Entries) (p : JSValue) : Entries :=
  match assocGet (.kstr "plugins") tree with
  | some (.list ps) => assocSet (.kstr "plugins") (.list (ps ++ [p])) tree
  | _ => tree

/-- The default configuration tree returned by `__set_defaults__`:
the base tree, plus `RawJS("fullReload()")` appended to the plugin list when
the force-full-reload flag is set. -/
def setDefaultsTree (s : Settings) : Entries :=
  if s.viteForceFullReload then appendPlugin (baseDefaultTree s) (.raw "fullReload()")
  else baseDefaultTree s

/-- The four framework import lines `__set_defaults__` prepends to
`self.imports`. -/
def defaultImports : List String :=
  [ "import \x7b fileURLToPath, URL \x7d from \"url\";",
    "import \x7b reactRouter \x7d from \"@react-router/dev/vite\";",
    "import \x7b defineConfig \x7d from \"vite\";",
    "import safariCacheBustPlugin from \"./vite-plugin-safari-cachebust\";" ]

/-- The fixed helper-function block assigned to `self.functions` in
`__init__` (verbatim, including the leading newline and the trailing
newline plus eight spaces of the triple-quoted literal). -/
def functionsText : String := String.intercalate "\n"
  [ "",
    "// Ensure that bun always uses the react-dom/server.node functions.",
    "function alwaysUseReactDomServerNode() \x7b",
    "  return \x7b",
    "    name: \"vite-plugin-always-use-react-dom-server-node\",",
    "    enforce: \"pre\",",
    "",
    "    resolveId(source, importer) \x7b",
    "      if (",
    "        typeof importer === \"string\" &&",
    "        importer.endsWith(\"/entry.server.node.tsx\") &&",
    "        source.includes(\"react-dom/server\")",
    "      ) \x7b",
    "        return this.resolve(\"react-dom/server.node\", importer, \x7b",
    "          skipSelf: true,",
    "        \x7d);",
    "      \x7d",
    "      return null;",
    "    \x7d,",
    "  \x7d;",
    "\x7d",
    "",
    "function fullReload() \x7b",
    "  return \x7b",
    "    name: \"full-reload\",",
    "    enforce: \"pre\",",
    "    handleHotUpdate(\x7b server \x7d) \x7b",
    "      server.ws.send(\x7b",
    "        type: \"full-reload\",",
    "      \x7d);",
    "      return [];",
    "    \x7d",
    "  \x7d;",
    "\x7d",
    "        " ]

/-- The mutable fields of a `ViteConfigPlugin` instance (its class attribute
`name` is a constant and never written). -/
structure PluginState where
  config : Entries
  imports : List String
  functions : String
deriving Repr

/-- `ViteConfigPlugin.__init__(config, imports=imports)`: `imports or []`
collapses `None` (and the falsy empty list) to `[]`. -/
def initPlugin (config : Entries) (imports : Option (List String)) : PluginState :=
  { config := config, imports := (imports.getD []), functions := functionsText }

/-- Python `str.strip()` whitespace class (the plugin's text never contains
the further `\v`/`\f`, which Lean's `trim` would treat the same way here). -/
def isPySpace (c : Char) : Bool :=
  c = ' ' || c = '\t' || c = '\n' || c = '\r' || c = '\x0b' || c = '\x0c'

/-- Python `s.strip()`. -/
def pyStrip (s : String) : String :=
  String.mk (((s.data.dropWhile isPySpace).reverse.dropWhile isPySpace).reverse)

/-- `__render_vite_config__`, returning the post-call instance state together
with the rendered text (or the first exception raised). Steps, as in the
source: `__set_defaults__` (which reassigns `self.imports` with the framework
imports prepended and builds the default tree), deep-merge of a deep copy of
the user configuration into the defaults (a deep copy is the identity in this
pure embedding), replacement of `merged["resolve"]["alias"]` by the alias
array, serialization, and assembly of the import lines, the helper-function
block and the export statement, stripped. The destination path (an external
collaborator) is out of scope. -/
def renderViteConfig (st : PluginState) (s : Settings) : PluginState × Except PyErr String :=
  let st1 : PluginState := { st with imports := defaultImports ++ st.imports }
  let out : Except PyErr String :=
    match deepMerge st.config (setDefaultsTree s) with
    | none => .error .attributeError
    | some merged =>
      match assocGet (.kstr "resolve") merged with
      | some (.dict res) =>
        match assocGet (.kstr "alias") res with
        | some aliasesVal =>
          match aliasDictToJsArray aliasesVal 2 with
          | .error e => .error e
          | .ok rawArr =>
            let merged2 :=
              assocSet (.kstr "resolve") (.dict (assocSet (.kstr "alias") rawArr res)) merged
            .ok (pyStrip (String.intercalate "\n" st1.imports ++ "\n\n" ++ st1.functions ++
              "\n\nexport default defineConfig((config) => (" ++ pyToJs (.dict merged2) 0 ++
              "));\n        "))
        | none => .error .keyError
      | some _ => .error .typeError
      | none => .error .keyError
  (st1, out)

/-- A merge-scalar in the sense of `__deep_merge__`'s `else` branch: neither a
dict nor a list (so plain scalars and the RawJS wrapper). -/
def isScalar : JSValue → Bool
  | .dict _ => false
  | .list _ => false
  | _ => true

/-- Whether `needle` occurs contiguously inside `hay`. -/
def listHasSub : List Char → List Char → Bool
  | needle, [] => needle.isEmpty
  | needle, c :: rest => needle.isPrefixOf (c :: rest) || listHasSub needle rest

/-- A value permitted by the `Alias` TypedDict for its two fields:
`str | RawJS`. -/
def isStrOrRaw : JSValue → Bool
  | .str _ => true
  | .raw _ => true
  | _ => false

/-- An alias record well-typed per the `Alias` TypedDict: a dict holding
`find` and `replacement` keys, each a `str` or a RawJS wrapper. -/
def aliasTyped : JSValue → Bool
  | .dict a =>
    (match assocGet (.kstr "find") a with
      | some f => isStrOrRaw f
      | none => false) &&
    (match assocGet (.kstr "replacement") a with
      | some rep => isStrOrRaw rep
      | none => false)
  | _ => false

/-- An alias record whose `replacement` is the RawJS wrapper. -/
def replacementRaw : JSValue → Bool
  | .dict a =>
    (match assocGet (.kstr "replacement") a with
      | some (.raw _) => true
      | _ => false)
  | _ => false

/-- An alias record whose `replacement` is a plain string. -/
def replacementStr : JSValue → Bool
  | .dict a =>
    (match assocGet (.kstr "replacement") a with
      | some (.str _) => true
      | _ => false)
  | _ => false

/-! ## Lemmas about the association-list dictionary operations -/

theorem assocGet_assocSet_self (k : PyKey) (v : JSValue) (l : Entries) :
    assocGet k (assocSet k v l) = some v := by
  induction l with
  | nil => simp [assocGet, assocSet]
  | cons hd tl ih =>
    obtain ⟨k1, v1⟩ := hd
    by_cases h : k1 = k
    · simp [assocGet, assocSet, h]
    · simp [assocGet, assocSet, h, ih]

theorem assocGet_assocSet_ne {k1 k : PyKey} (v : JSValue) (l : Entries) (h : k1 ≠ k) :
    assocGet k (assocSet k1 v l) = assocGet k l := by
  induction l with
  | nil => simp [assocGet, assocSet, h]
  | cons hd tl ih =>
    obtain ⟨k2, v2⟩ := hd
    by_cases h2 : k2 = k1
    · subst h2
      simp [assocGet, assocSet, h]
    · simp only [assocGet, assocSet, if_neg h2]
      rw [ih]

theorem assocGet_eq_none {k : PyKey} {l : Entries} (h : k ∉ l.map Prod.fst) :
    assocGet k l = none := by
  induction l with
  | nil => rfl
  | cons hd tl ih =>
    obtain ⟨k1, v1⟩ := hd
    simp only [List.map_cons, List.mem_cons, not_or] at h
    rw [assocGet, if_neg (fun hh : k1 = k => h.1 hh.symm), ih h.2]

/-! ## Lemmas about one step of the merge loop -/

theorem deepMerge_nil (d : Entries) : deepMerge [] d = some d := by
  simp [deepMerge]

theorem deepMerge_cons_scalar {v : JSValue} (k : PyKey) (rest : Entries) (d : Entries)
    (h : isScalar v = true) :
    deepMerge ((k, v) :: rest) d = deepMerge rest (assocSet k v d) := by
  cases v <;> simp_all [deepMerge, isScalar]

theorem deepMerge_cons_list_present {k : PyKey} {d : Entries} {old : List JSValue}
    (items : List JSValue) (rest : Entries) (h : assocGet k d = some (.list old)) :
    deepMerge ((k, .list items) :: rest) d =
      deepMerge rest (assocSet k (.list (old ++ items)) d) := by
  simp [deepMerge, h]

theorem deepMerge_cons_list_absent {k : PyKey} {d : Entries}
    (items : List JSValue) (rest : Entries) (h : assocGet k d = none) :
    deepMerge ((k, .list items) :: rest) d =
      deepMerge rest (assocSet k (.list items) d) := by
  simp [deepMerge, h]

theorem deepMerge_cons_dict {k : PyKey} {d : Entries} {dv : Entries}
    (mv : Entries) (rest : Entries) (h : assocGet k d = some (.dict dv)) :
    deepMerge ((k, .dict mv) :: rest) d =
      (deepMerge mv dv).bind (fun inner => deepMerge rest (assocSet k (.dict inner) d)) := by
  simp [deepMerge, h]
  cases deepMerge mv dv <;> simp

theorem deepMerge_cons_some {k : PyKey} {v : JSValue} {rest d r : Entries}
    (h : deepMerge ((k, v) :: rest) d = some r) :
    ∃ w, deepMerge rest (assocSet k w d) = some r := by
  rw [deepMerge.eq_def] at h
  dsimp only [] at h
  split at h
  · next ve me _ =>
    rcases hi : deepMerge ve me with _ | inner
    · rw [hi] at h
      simp at h
    · rw [hi] at h
      simp at h
      exact ⟨_, h⟩
  · simp at h
    exact ⟨_, h⟩
  · simp at h
  · simp at h
    exact ⟨_, h⟩
  · simp at h
    exact ⟨_, h⟩

/-! ## Lookup lemmas for the whole merge -/

theorem deepMerge_frame {m d r : Entries} {k : PyKey}
    (h : deepMerge m d = some r) (hk : assocGet k m = none) :
    assocGet k r = assocGet k d := by
  induction m generalizing d with
  | nil =>
    rw [deepMerge_nil] at h
    cases h
    rfl
  | cons hd tl ih =>
    obtain ⟨k1, v1⟩ := hd
    rw [assocGet] at hk
    by_cases hne : k1 = k
    · simp [hne] at hk
    · rw [if_neg hne] at hk
      obtain ⟨w, h2⟩ := deepMerge_cons_some h
      rw [ih h2 hk, assocGet_assocSet_ne _ _ hne]

theorem deepMerge_lookup_scalar {m d r : Entries} {k : PyKey} {v : JSValue}
    (hn : (m.map Prod.fst).Nodup) (hm : assocGet k m = some v)
    (hs : isScalar v = true) (h : deepMerge m d = some r) :
    assocGet k r = some v := by
  induction m generalizing d with
  | nil => simp [assocGet] at hm
  | cons hd tl ih =>
    obtain ⟨k1, v1⟩ := hd
    simp at hn
    by_cases hk : k1 = k
    · subst hk
      rw [assocGet, if_pos rfl] at hm
      cases hm
      rw [deepMerge_cons_scalar _ _ _ hs] at h
      rw [deepMerge_frame h (assocGet_eq_none (by simpa using hn.1)),
        assocGet_assocSet_self]
    · rw [assocGet, if_neg hk] at hm
      obtain ⟨w, h2⟩ := deepMerge_cons_some h
      exact ih hn.2 hm h2

theorem deepMerge_lookup_list {m d r : Entries} {k : PyKey}
    {items old : List JSValue}
    (hn : (m.map Prod.fst).Nodup) (hm : assocGet k m = some (.list items))
    (hd : assocGet k d = some (.list old)) (h : deepMerge m d = some r) :
    assocGet k r = some (.list (old ++ items)) := by
  induction m generalizing d with
  | nil => simp [assocGet] at hm
  | cons hd1 tl ih =>
    obtain ⟨k1, v1⟩ := hd1
    simp at hn
    by_cases hk : k1 = k
    · subst hk
      rw [assocGet, if_pos rfl] at hm
      cases hm
      rw [deepMerge_cons_list_present _ _ hd] at h
      rw [deepMerge_frame h (assocGet_eq_none (by simpa using hn.1)),
        assocGet_assocSet_self]
    · rw [assocGet, if_neg hk] at hm
      obtain ⟨w, h2⟩ := deepMerge_cons_some h
      exact ih hn.2 hm (by rw [assocGet_assocSet_ne _ _ hk]; exact hd) h2

theorem deepMerge_lookup_dict {m d r : Entries} {k : PyKey} {mv dv : Entries}
    (hn : (m.map Prod.fst).Nodup) (hm : assocGet k m = some (.dict mv))
    (hd : assocGet k d = some (.dict dv)) (h : deepMerge m d = some r) :
    ∃ inner, deepMerge mv dv = some inner ∧ assocGet k r = some (.dict inner) := by
  induction m generalizing d with
  | nil => simp [assocGet] at hm
  | cons hd1 tl ih =>
    obtain ⟨k1, v1⟩ := hd1
    simp at hn
    by_cases hk : k1 = k
    · subst hk
      rw [assocGet, if_pos rfl] at hm
      cases hm
      rw [deepMerge_cons_dict _ _ hd] at h
      rcases hi : deepMerge mv dv with _ | inner
      · rw [hi] at h
        simp at h
      · rw [hi] at h
        simp at h
        refine ⟨inner, rfl, ?_⟩
        rw [deepMerge_frame h (assocGet_eq_none (by simpa using hn.1)),
          assocGet_assocSet_self]
    · rw [assocGet, if_neg hk] at hm
      obtain ⟨w, h2⟩ := deepMerge_cons_some h
      exact ih hn.2 hm (by rw [assocGet_assocSet_ne _ _ hk]; exact hd) h2

/-! ## The claims -/

/-- Claim C2: merge precedence — for mappings `m` (user) and `d` (defaults)
sharing a key `k` whose value in `m` is a scalar (not a mapping or sequence),
the result of `deepMerge(m, d)` at `k` equals `m[k]`: the user value
unconditionally overwrites the default. -/
theorem claim_C2_merge_precedence (m d r : Entries) (k : PyKey) (v w : JSValue)
    (hn : (m.map Prod.fst).Nodup) (hm : assocGet k m = some v)
    (hs : isScalar v = true) (_hd : assocGet k d = some w)
    (hmerge : deepMerge m d = some r) :
    assocGet k r = some v :=
  deepMerge_lookup_scalar hn hm hs hmerge

unseal deepMerge in
/-- Witness for C2 at the concrete input `m = {a: 1}`, `d = {a: 2}`. -/
theorem claim_C2_witness :
    ((([((.kstr "a" : PyKey), JSValue.num 1)] : Entries).map Prod.fst).Nodup ∧
      assocGet (.kstr "a") [((.kstr "a" : PyKey), JSValue.num 1)] = some (.num 1) ∧
      isScalar (.num 1) = true ∧
      assocGet (.kstr "a") [((.kstr "a" : PyKey), JSValue.num 2)] = some (.num 2) ∧
      deepMerge [((.kstr "a" : PyKey), JSValue.num 1)] [((.kstr "a" : PyKey), JSValue.num 2)] =
        some [((.kstr "a" : PyKey), JSValue.num 1)]) ∧
    assocGet (.kstr "a") [((.kstr "a" : PyKey), JSValue.num 1)] = some (.num 1) := by
  refine ⟨⟨by simp, by rfl, by rfl, by rfl, by rfl⟩, ?_⟩
  exact claim_C2_merge_precedence [((.kstr "a" : PyKey), JSValue.num 1)]
    [((.kstr "a" : PyKey), JSValue.num 2)] [((.kstr "a" : PyKey), JSValue.num 1)]
    (.kstr "a") (.num 1) (.num 2) (by simp) (by rfl) (by rfl) (by rfl) (by rfl)

/-- Claim C3: merge sequence concatenation — for every key `k` and sequences
`A` (user side) and `B` (defaults side), `deepMerge({k: A}, {k: B})[k]` is the
concatenation `B ++ A` (defaults elements first, then the user's in order);
when `k` is absent from the merger, the result at `k` is the mergee's
sequence. -/
theorem claim_C3_merge_sequence_concat (k : PyKey) (A B : List JSValue) :
    (∃ r, deepMerge [(k, .list A)] [(k, .list B)] = some r ∧
      assocGet k r = some (.list (B ++ A))) ∧
    (∀ d : Entries, assocGet k d = none →
      ∃ r, deepMerge [(k, .list A)] d = some r ∧ assocGet k r = some (.list A)) := by
  constructor
  · refine ⟨assocSet k (.list (B ++ A)) [(k, .list B)], ?_, assocGet_assocSet_self ..⟩
    have hB : assocGet k [(k, JSValue.list B)] = some (.list B) := by simp [assocGet]
    rw [deepMerge_cons_list_present A [] hB, deepMerge_nil]
  · intro d hd
    refine ⟨assocSet k (.list A) d, ?_, assocGet_assocSet_self ..⟩
    rw [deepMerge_cons_list_absent A [] hd, deepMerge_nil]

/-- Witness for C3 at `k`, `A = [1]`, `B = [2]`, and the absent case at the
empty merger. -/
theorem claim_C3_witness :
    (∃ r, deepMerge [((.kstr "k" : PyKey), JSValue.list [.num 1])]
        [((.kstr "k" : PyKey), JSValue.list [.num 2])] = some r ∧
      assocGet (.kstr "k") r = some (.list ([JSValue.num 2] ++ [JSValue.num 1]))) ∧
    (∃ r, deepMerge [((.kstr "k" : PyKey), JSValue.list [.num 1])] ([] : Entries) = some r ∧
      assocGet (.kstr "k") r = some (.list [JSValue.num 1])) :=
  ⟨(claim_C3_merge_sequence_concat (.kstr "k") [.num 1] [.num 2]).1,
    (claim_C3_merge_sequence_concat (.kstr "k") [.num 1] [.num 2]).2 [] rfl⟩

/-- Claim C4: merge recursion — when a key maps to a mapping in both trees,
the nested mappings are merged key-by-key rather than replaced: a key present
only in the defaults' nested mapping survives with its default value. -/
theorem claim_C4_merge_recursion (m d r : Entries) (k k2 : PyKey) (mv dv : Entries)
    (w : JSValue) (hn : (m.map Prod.fst).Nodup)
    (hm : assocGet k m = some (.dict mv)) (hd : assocGet k d = some (.dict dv))
    (hk2m : assocGet k2 mv = none) (hk2d : assocGet k2 dv = some w)
    (hmerge : deepMerge m d = some r) :
    ∃ rv, assocGet k r = some (.dict rv) ∧ assocGet k2 rv = some w := by
  obtain ⟨inner, hi, hr⟩ := deepMerge_lookup_dict hn hm hd hmerge
  exact ⟨inner, hr, by rw [deepMerge_frame hi hk2m, hk2d]⟩

unseal deepMerge in
/-- Witness for C4 at `m = {b: {x: 1}}`, `d = {b: {y: 2}}`: the default-only
nested key `y` survives with value `2`. -/
theorem claim_C4_witness :
    deepMerge [((.kstr "b" : PyKey), JSValue.dict [(.kstr "x", .num 1)])]
        [((.kstr "b" : PyKey), JSValue.dict [(.kstr "y", .num 2)])] =
      some [((.kstr "b" : PyKey), JSValue.dict [(.kstr "y", .num 2), (.kstr "x", .num 1)])] ∧
    ∃ rv, assocGet (.kstr "b")
        [((.kstr "b" : PyKey), JSValue.dict [(.kstr "y", .num 2), (.kstr "x", .num 1)])] =
          some (.dict rv) ∧ assocGet (.kstr "y") rv = some (.num 2) :=
  ⟨rfl, claim_C4_merge_recursion [((.kstr "b" : PyKey), JSValue.dict [(.kstr "x", .num 1)])]
    [((.kstr "b" : PyKey), JSValue.dict [(.kstr "y", .num 2)])]
    [((.kstr "b" : PyKey), JSValue.dict [(.kstr "y", .num 2), (.kstr "x", .num 1)])]
    (.kstr "b") (.kstr "y") [(.kstr "x", .num 1)] [(.kstr "y", .num 2)] (.num 2)
    (by simp) (by rfl) (by rfl) (by rfl) (by rfl) (by rfl)⟩

/-- Claim C5: raw-fragment passthrough — serializing `RawJS(t)` yields exactly
`t`, at every indentation level: never quoted, escaped or recursed into. -/
theorem claim_C5_raw_passthrough (t : String) (indent : Nat) :
    pyToJs (.raw t) indent = t := by
  simp [pyToJs]

/-- Claim C6: scalar serialization — `42` renders as `"42"`, `True` as
`"true"`, `None` as `"null"`, and every string renders as itself between
single quotes with no escaping of its characters. -/
theorem claim_C6_scalar_serialization (indent : Nat) (s : String) :
    pyToJs (.num 42) indent = "42" ∧ pyToJs (.bool true) indent = "true" ∧
    pyToJs .null indent = "null" ∧ pyToJs (.str s) indent = "'" ++ s ++ "'" := by
  refine ⟨?_, ?_, ?_, ?_⟩ <;> simp only [pyToJs] <;> rfl

/-- Claim C7: alias path normalization — for a plain-string replacement the
builder replaces every backslash by a forward slash before escaping double
quotes (so a quote-free path yields no backslash at all), and the concrete
alias `{find: "@", replacement: ".\a\b"}` produces fragment text containing
`"./a/b"` and no backslash character. -/
theorem claim_C7_alias_normalization :
    (∀ rep : String, '"' ∉ rep.data → '\\' ∉ (safePath rep).data) ∧
    (∃ r : String,
      aliasDictToJsArray (.list [ .dict
        [ (.kstr "find", .str "@"), (.kstr "replacement", .str ".\\a\\b") ] ]) 2 =
        .ok (.raw r) ∧
      listHasSub ("./a/b".data) r.data = true ∧ '\\' ∉ r.data) := by
  constructor
  · intro rep hq hmem
    simp only [safePath, pyReplaceCharStr, pyReplaceChar, List.mem_flatMap,
      List.mem_map] at hmem
    obtain ⟨a, ⟨c, hc, hfc⟩, ha⟩ := hmem
    by_cases hcq : c = '\\'
    · rw [if_pos hcq] at hfc
      subst hfc
      simp at ha
    · rw [if_neg hcq] at hfc
      subst hfc
      by_cases hq2 : c = '"'
      · exact hq (hq2 ▸ hc)
      · rw [if_neg hq2] at ha
        simp at ha
        exact hcq ha.symm
  · refine ⟨_, rfl, ?_, ?_⟩ <;> decide

/-- Witness for C7's universal part at the quote-free path `".\a\b"`. -/
theorem claim_C7_witness :
    '"' ∉ (".\\a\\b" : String).data ∧ '\\' ∉ (safePath ".\\a\\b").data :=
  ⟨by decide, claim_C7_alias_normalization.1 ".\\a\\b" (by decide)⟩

/-- One-step unfolding of the serializer on a dict, with the `attach` of the
termination argument removed. -/
theorem pyToJs_dict (entries : Entries) (indent : Nat) :
    pyToJs (.dict entries) indent =
      if !entries.isEmpty && entries.all (fun p => isStrKey p.1) then
        "\x7b\n" ++
          String.intercalate ",\n"
            (entries.map (fun p =>
              pyRepeat " " indent ++ "  " ++ keyOut p.1 ++ ": " ++ pyToJs p.2 (indent + 1))) ++
          "\n" ++ pyRepeat " " indent ++ "\x7d"
      else "\x7b\x7d" := by
  simp only [pyToJs]
  rw [show (entries.attach.map (fun p =>
      pyRepeat " " indent ++ "  " ++ keyOut p.1.1 ++ ": " ++ pyToJs p.1.2 (indent + 1))) =
    entries.map (fun p =>
      pyRepeat " " indent ++ "  " ++ keyOut p.1 ++ ": " ++ pyToJs p.2 (indent + 1)) from
    List.attach_map_val entries (fun p =>
      pyRepeat " " indent ++ "  " ++ keyOut p.1 ++ ": " ++ pyToJs p.2 (indent + 1))]

/-- Claim C9: a non-empty mapping holding at least one non-string key
serializes to the empty-object literal, silently discarding every entry;
a non-empty all-string-keyed mapping is serialized entry by entry. -/
theorem claim_C9_nonstring_key_discard (entries : Entries) (indent : Nat)
    (hne : entries ≠ []) :
    ((∃ p ∈ entries, isStrKey p.1 = false) → pyToJs (.dict entries) indent = "\x7b\x7d") ∧
    ((∀ p ∈ entries, isStrKey p.1 = true) →
      pyToJs (.dict entries) indent =
        "\x7b\n" ++
          String.intercalate ",\n"
            (entries.map (fun p =>
              pyRepeat " " indent ++ "  " ++ keyOut p.1 ++ ": " ++ pyToJs p.2 (indent + 1))) ++
          "\n" ++ pyRepeat " " indent ++ "\x7d") := by
  constructor
  · rintro ⟨p, hp, hfalse⟩
    rw [pyToJs_dict, if_neg]
    intro h
    rw [Bool.and_eq_true, List.all_eq_true] at h
    have := h.2 p hp
    rw [hfalse] at this
    exact Bool.false_ne_true this
  · intro hall
    rw [pyToJs_dict, if_pos]
    rw [Bool.and_eq_true, List.all_eq_true]
    exact ⟨by simpa using hne, hall⟩

/-- Witness for C9 at the concrete mapping `{1: "a"}` (integer key). -/
theorem claim_C9_witness :
    (([((.kint 1 : PyKey), JSValue.str "a")] : Entries) ≠ []) ∧
    pyToJs (.dict [((.kint 1 : PyKey), JSValue.str "a")]) 0 = "\x7b\x7d" :=
  ⟨by simp, (claim_C9_nonstring_key_discard [((.kint 1 : PyKey), JSValue.str "a")] 0
    (by simp)).1 ⟨(.kint 1, .str "a"), by simp, rfl⟩⟩

/-- A well-typed alias record whose replacement is not the RawJS wrapper has
a plain-string replacement. -/
theorem typed_not_raw_str {a : JSValue} (ht : aliasTyped a = true)
    (hr : replacementRaw a = false) : replacementStr a = true := by
  cases a with
  | dict l =>
    rcases hrep : assocGet (.kstr "replacement") l with _ | v
    · simp [aliasTyped, hrep] at ht
    · cases v <;> simp_all [aliasTyped, replacementRaw, replacementStr, isStrOrRaw, hrep]
  | raw c => simp [aliasTyped] at ht
  | list l => simp [aliasTyped] at ht
  | str s => simp [aliasTyped] at ht
  | bool b => simp [aliasTyped] at ht
  | null => simp [aliasTyped] at ht
  | num n => simp [aliasTyped] at ht

/-- A record with a RawJS replacement makes the loop body raise
AttributeError (RawJS has no `.replace`), before `find` is even read. -/
theorem aliasLine_raw {a : JSValue} (hr : replacementRaw a = true) (sp : String) :
    aliasLine a sp = .error .attributeError := by
  cases a with
  | dict l =>
    rcases hrep : assocGet (.kstr "replacement") l with _ | v
    · simp [replacementRaw, hrep] at hr
    · cases v <;> simp [replacementRaw, hrep] at hr <;> simp [aliasLine, hrep]
  | raw c => simp [replacementRaw] at hr
  | list l => simp [replacementRaw] at hr
  | str s => simp [replacementRaw] at hr
  | bool b => simp [replacementRaw] at hr
  | null => simp [replacementRaw] at hr
  | num n => simp [replacementRaw] at hr

/-- A well-typed record with a plain-string replacement yields a line. -/
theorem aliasLine_str {a : JSValue} (ht : aliasTyped a = true)
    (hs : replacementStr a = true) (sp : String) :
    ∃ line, aliasLine a sp = .ok line := by
  cases a with
  | dict l =>
    rcases hrep : assocGet (.kstr "replacement") l with _ | v
    · simp [replacementStr, hrep] at hs
    · cases v with
      | str rep =>
        rcases hfind : assocGet (.kstr "find") l with _ | f
        · simp [aliasTyped, hrep, hfind] at ht
        · exact ⟨sp ++ "\x7b find: \"" ++ pyFStr f ++
            "\", replacement: fileURLToPath(new URL(\"" ++ safePath rep ++
            "\", import.meta.url)) \x7d", by simp [aliasLine, hrep, hfind]⟩
      | raw c => simp [replacementStr, hrep] at hs
      | dict l2 => simp [replacementStr, hrep] at hs
      | list l2 => simp [replacementStr, hrep] at hs
      | bool b => simp [replacementStr, hrep] at hs
      | null => simp [replacementStr, hrep] at hs
      | num n => simp [replacementStr, hrep] at hs
  | raw c => simp [replacementStr] at hs
  | list l => simp [replacementStr] at hs
  | str s => simp [replacementStr] at hs
  | bool b => simp [replacementStr] at hs
  | null => simp [replacementStr] at hs
  | num n => simp [replacementStr] at hs

/-- Over well-typed records, the loop raises AttributeError as soon as some
record's replacement is the RawJS wrapper. -/
theorem aliasLines_error {items : List JSValue} (sp : String)
    (ht : ∀ a ∈ items, aliasTyped a = true)
    (hex : ∃ a ∈ items, replacementRaw a = true) :
    aliasLines items sp = .error .attributeError := by
  induction items with
  | nil => simp at hex
  | cons a rest ih =>
    by_cases hra : replacementRaw a = true
    · rw [aliasLines, aliasLine_raw hra]
    · have hta := ht a (by simp)
      obtain ⟨line, hline⟩ :=
        aliasLine_str hta (typed_not_raw_str hta (by simpa using hra)) sp
      rw [aliasLines, hline]
      have hrest : aliasLines rest sp = .error .attributeError := by
        refine ih (fun b hb => ht b (by simp [hb])) ?_
        obtain ⟨b, hb, hrb⟩ := hex
        rcases List.mem_cons.mp hb with hba | hbr
        · exact absurd (hba ▸ hrb) hra
        · exact ⟨b, hbr, hrb⟩
      rw [hrest]

/-- Over records whose replacements are all plain strings (and well-typed),
the loop completes. -/
theorem aliasLines_ok {items : List JSValue} (sp : String)
    (ht : ∀ a ∈ items, aliasTyped a = true)
    (hs : ∀ a ∈ items, replacementStr a = true) :
    ∃ lines, aliasLines items sp = .ok lines := by
  induction items with
  | nil => exact ⟨[], rfl⟩
  | cons a rest ih =>
    obtain ⟨line, hline⟩ := aliasLine_str (ht a (by simp)) (hs a (by simp)) sp
    obtain ⟨lines, hlines⟩ :=
      ih (fun b hb => ht b (by simp [hb])) (fun b hb => hs b (by simp [hb]))
    exact ⟨line :: lines, by rw [aliasLines, hline, hlines]⟩

/-- Claim C10: for every non-empty well-typed record list, the alias-array
builder raises AttributeError whenever some record's replacement is the raw
wrapper, and returns normally whenever every replacement is a plain string. -/
theorem claim_C10_alias_raw_replacement (items : List JSValue) (indent : Nat)
    (hne : items ≠ []) (ht : ∀ a ∈ items, aliasTyped a = true) :
    ((∃ a ∈ items, replacementRaw a = true) →
      aliasDictToJsArray (.list items) indent = .error .attributeError) ∧
    ((∀ a ∈ items, replacementStr a = true) →
      ∃ r, aliasDictToJsArray (.list items) indent = .ok (.raw r)) := by
  constructor
  · intro hex
    simp only [aliasDictToJsArray]
    rw [if_neg (by simpa using hne), aliasLines_error (pyRepeat "  " indent) ht hex]
  · intro hs
    obtain ⟨lines, hl⟩ := aliasLines_ok (pyRepeat "  " indent) ht hs
    refine ⟨"[\n" ++ String.intercalate ",\n" lines ++ "\n" ++
      pyRepeat (pyRepeat "  " indent) (indent - 1) ++ "]", ?_⟩
    simp only [aliasDictToJsArray]
    rw [if_neg (by simpa using hne), hl]

/-- Witness for C10 at a one-record list whose replacement is `RawJS("x")`. -/
theorem claim_C10_witness :
    (([JSValue.dict [(.kstr "find", .str "@"), (.kstr "replacement", .raw "x")]] :
      List JSValue) ≠ []) ∧
    aliasDictToJsArray
        (.list [JSValue.dict [(.kstr "find", .str "@"), (.kstr "replacement", .raw "x")]]) 2 =
      .error .attributeError := by
  refine ⟨by simp, ?_⟩
  refine (claim_C10_alias_raw_replacement _ 2 (by simp) ?_).1
    ⟨JSValue.dict [(.kstr "find", .str "@"), (.kstr "replacement", .raw "x")], by simp, rfl⟩
  intro a ha
  rw [List.mem_singleton] at ha
  subst ha
  rfl

set_option maxRecDepth 4096 in
/-- The plugin list stored in the default tree: the three baseline raw
fragments, plus the full-reload fragment exactly when the flag is set. -/
theorem setDefaults_plugins (s : Settings) :
    assocGet (.kstr "plugins") (setDefaultsTree s) =
      some (.list (if s.viteForceFullReload then
        [JSValue.raw "alwaysUseReactDomServerNode()", .raw "reactRouter()",
          .raw "safariCacheBustPlugin()", .raw "fullReload()"]
        else
        [JSValue.raw "alwaysUseReactDomServerNode()", .raw "reactRouter()",
          .raw "safariCacheBustPlugin()"])) := by
  cases hf : s.viteForceFullReload <;>
    simp [setDefaultsTree, baseDefaultTree, appendPlugin, assocGet, assocSet, hf]

/-- Claim C8: with force-full-reload set the defaults' plugin list holds
exactly the three baseline raw fragments plus one extra raw fragment, without
it exactly the three; merging a user configuration appends the user's plugins
after them. -/
theorem claim_C8_force_full_reload (s : Settings) (m : Entries) (P : List JSValue)
    (r : Entries) (hn : (m.map Prod.fst).Nodup)
    (hm : assocGet (.kstr "plugins") m = some (.list P))
    (hmerge : deepMerge m (setDefaultsTree s) = some r) :
    assocGet (.kstr "plugins") (setDefaultsTree s) =
      some (.list (if s.viteForceFullReload then
        [JSValue.raw "alwaysUseReactDomServerNode()", .raw "reactRouter()",
          .raw "safariCacheBustPlugin()", .raw "fullReload()"]
        else
        [JSValue.raw "alwaysUseReactDomServerNode()", .raw "reactRouter()",
          .raw "safariCacheBustPlugin()"])) ∧
    assocGet (.kstr "plugins") r =
      some (.list ((if s.viteForceFullReload then
        [JSValue.raw "alwaysUseReactDomServerNode()", .raw "reactRouter()",
          .raw "safariCacheBustPlugin()", .raw "fullReload()"]
        else
        [JSValue.raw "alwaysUseReactDomServerNode()", .raw "reactRouter()",
          .raw "safariCacheBustPlugin()"]) ++ P)) :=
  ⟨setDefaults_plugins s,
    deepMerge_lookup_list hn hm (setDefaults_plugins s) hmerge⟩

set_option maxRecDepth 16384 in
unseal deepMerge in
/-- Witness for C8: flag set, user config `{plugins: [RawJS("userPlugin()")]}`. -/
theorem claim_C8_witness :
    ∃ r, deepMerge [((.kstr "plugins" : PyKey), JSValue.list [.raw "userPlugin()"])]
        (setDefaultsTree ⟨ "", false, true ⟩) = some r ∧
      assocGet (.kstr "plugins") (setDefaultsTree ⟨ "", false, true ⟩) =
        some (.list [JSValue.raw "alwaysUseReactDomServerNode()", .raw "reactRouter()",
          .raw "safariCacheBustPlugin()", .raw "fullReload()"]) ∧
      assocGet (.kstr "plugins") r =
        some (.list [JSValue.raw "alwaysUseReactDomServerNode()", .raw "reactRouter()",
          .raw "safariCacheBustPlugin()", .raw "fullReload()", .raw "userPlugin()"]) := by
  refine ⟨_, rfl, ?_⟩
  have h := claim_C8_force_full_reload ⟨ "", false, true ⟩
    [((.kstr "plugins" : PyKey), JSValue.list [.raw "userPlugin()"])] [.raw "userPlugin()"] _
    (by simp) (by rfl) rfl
  exact ⟨h.1, h.2⟩

/-- Rendering always returns the instance state with the framework imports
prepended to `imports` and everything else untouched (every branch of the
renderer produces the same first component). -/
theorem renderViteConfig_fst (st : PluginState) (s : Settings) :
    (renderViteConfig st s).1 = { st with imports := defaultImports ++ st.imports } := rfl

/-- Claim C1 is false on the code at a concrete instance: one render call
mutates the plugin's `imports` field (the framework imports are prepended and
persist), so the instance does not observe identical inputs on the next call. -/
theorem claim_C1_counterexample :
    (renderViteConfig (initPlugin [] none) ⟨ "", false, false ⟩).1.imports ≠
      (initPlugin [] none).imports := by
  rw [renderViteConfig_fst]
  simp [initPlugin, defaultImports]

/-- Claim C1 as amended: a render call leaves the user configuration and the
helper-function text unchanged, but reassigns the instance's `imports` to the
four framework import lines followed by its previous value — so the imports
field never equals its pre-call value and consecutive renders do not observe
identical inputs. -/
theorem claim_C1_amended (st : PluginState) (s : Settings) :
    (renderViteConfig st s).1.config = st.config ∧
    (renderViteConfig st s).1.functions = st.functions ∧
    (renderViteConfig st s).1.imports = defaultImports ++ st.imports ∧
    (renderViteConfig st s).1.imports ≠ st.imports := by
  refine ⟨rfl, rfl, rfl, ?_⟩
  rw [renderViteConfig_fst]
  intro heq
  have hlen := congrArg List.length heq
  simp [defaultImports] at hlen
  omega

/-- Witness for C1's amended statement at a concrete fresh instance. -/
theorem claim_C1_witness :
    (renderViteConfig (initPlugin [] none) ⟨ "", true, false ⟩).1.config =
      (initPlugin [] none).config ∧
    (renderViteConfig (initPlugin [] none) ⟨ "", true, false ⟩).1.functions =
      (initPlugin [] none).functions ∧
    (renderViteConfig (initPlugin [] none) ⟨ "", true, false ⟩).1.imports =
      defaultImports ++ (initPlugin [] none).imports ∧
    (renderViteConfig (initPlugin [] none) ⟨ "", true, false ⟩).1.imports ≠
      (initPlugin [] none).imports :=
  claim_C1_amended (initPlugin [] none) ⟨ "", true, false ⟩

end ViteCfg
